import Mathlib

/-!
Verification model of the columnar array core exercised by `src/src/main.rs`
(a zero-copy Arrow-style representation: buffers, null bitmaps, generic
`ArrayData`, typed views, and builders).  The demo program under `src/` only
calls into this core; the core itself is modelled from the specification
(spec.md, sections 3 and 4), as noted on each definition.

Buffers are modelled as their logical byte contents (`List Nat`, each entry a
byte value); the 8-byte allocation padding of a physical buffer is not
observable through `len()` (spec section 4.1: `len()` returns the unpadded
logical size), so it is not represented.
-/

/-- Modelled from the spec: error kinds of section 7 (the source repository
only contains callers of the core, not the core's error type itself). -/
inductive ArrowError where
  | layoutError
  | rangeError
  | typeMismatchError
  | nullAccessError
  | encodingError
  | allocationError
  | alignmentError
  deriving DecidableEq, Repr

/-- Modelled from the spec: `DataType` is "a closed tagged variant —
{Boolean, Int32, Int64, Float64, Utf8, List(element), Struct(fields)}"
(section 3).  A `Field` is `{name, data_type, nullable}`; it is represented
as a triple so that `DataType` needs no mutual recursion. -/
inductive DataType where
  | boolean
  | int32
  | int64
  | float64
  | utf8
  | list (elem : DataType)
  | strct (fields : List (String × DataType × Bool))

/-- A `Field` value `{name, data_type, nullable}` (spec section 3). -/
abbrev ArrowField := String × DataType × Bool

/-- Constructor mirroring `Field::new(name, data_type, nullable)`. -/
def ArrowField.new (name : String) (dt : DataType) (nullable : Bool) : ArrowField :=
  (name, dt, nullable)

/-- The byte (LSB-first) packing one block of up to 8 validity bits:
bit `i` of the result is element `i` of the list (spec section 3:
"one bit per logical slot, least-significant-bit-first within each byte"). -/
def byteOfBits (bs : List Bool) : Nat :=
  bs.foldr (fun b acc => (cond b 1 0) + 2 * acc) 0

/-- Pack a list of validity bits into bytes, LSB-first within each byte. -/
def packBits (bs : List Bool) : List Nat :=
  (List.range ((bs.length + 7) / 8)).map
    (fun k => byteOfBits ((bs.drop (8 * k)).take 8))

/-- Read bit `i` of a bit-packed byte buffer, LSB-first within each byte. -/
def bitmapGet (bm : List Nat) (i : Nat) : Bool :=
  Nat.testBit (bm.getD (i / 8) 0) (i % 8)

/-- Little-endian 4-byte encoding of a signed 32-bit integer
(spec section 6: "offsets are 4-byte little/native-endian signed integers"). -/
def i32ToBytesLE (v : Int) : List Nat :=
  let u := (v.emod 4294967296).toNat
  [u % 256, u / 256 % 256, u / 65536 % 256, u / 16777216 % 256]

/-- Little-endian 4-byte decoding of a signed 32-bit integer. -/
def i32FromBytesLE (bs : List Nat) : Int :=
  let u := bs.getD 0 0 % 256 + 256 * (bs.getD 1 0 % 256) +
      65536 * (bs.getD 2 0 % 256) + 16777216 * (bs.getD 3 0 % 256)
  if u < 2147483648 then (u : Int) else (u : Int) - 4294967296

/-- Modelled from the spec: `ArrayData` is `{data_type, length, logical_offset,
buffers, null_bitmap, children}` (section 3); the source repository only
constructs `ArrayData` values, the type lives in the external core.
Buffers hold logical bytes. -/
inductive ArrayData where
  | mk (dataType : DataType) (length : Nat) (offset : Nat)
      (buffers : List (List Nat)) (nullBitmap : Option (List Nat))
      (children : List ArrayData)

def ArrayData.dataType : ArrayData → DataType
  | .mk dt _ _ _ _ _ => dt

def ArrayData.length : ArrayData → Nat
  | .mk _ len _ _ _ _ => len

def ArrayData.offset : ArrayData → Nat
  | .mk _ _ off _ _ _ => off

def ArrayData.buffers : ArrayData → List (List Nat)
  | .mk _ _ _ bufs _ _ => bufs

def ArrayData.nullBitmap : ArrayData → Option (List Nat)
  | .mk _ _ _ _ bm _ => bm

def ArrayData.children : ArrayData → List ArrayData
  | .mk _ _ _ _ _ ch => ch

/-- The `i`-th 4-byte signed integer stored in a byte buffer. -/
def offDecode (buf : List Nat) (i : Nat) : Int :=
  i32FromBytesLE ((buf.drop (4 * i)).take 4)

/-- `offsets[i] <= offsets[i+1]` for all `i < len`, over the first `len + 1`
4-byte integers of an offsets buffer (spec section 3: "monotonically
non-decreasing"). -/
def offsetsMonotone (buf : List Nat) (len : Nat) : Bool :=
  (List.range len).all (fun i => offDecode buf i ≤ offDecode buf (i + 1))

/-- Minimal byte size of the single values buffer of a fixed-width type
(spec section 3 per-type buffer contract; Boolean is bit-packed). -/
def primitiveByteSize (dt : DataType) (len : Nat) : Nat :=
  match dt with
  | .boolean => (len + 7) / 8
  | .int32 => 4 * len
  | .int64 => 8 * len
  | .float64 => 8 * len
  | _ => 0

/-- A null bitmap, when present, must cover the logical length
(spec section 4.3: fails when the "bitmap [is] shorter than length"). -/
def bitmapOk (bm : Option (List Nat)) (len : Nat) : Bool :=
  match bm with
  | none => true
  | some b => len ≤ 8 * b.length

/-- Modelled from the spec: the builder-style `ArrayData` constructor of
section 4.3 — it "validates all the per-type contracts in section 3; fails
with `LayoutError` (wrong buffer count, buffer too small, offsets
non-monotonic, child length mismatch, or bitmap shorter than length)".
The source repository only calls `ArrayData::builder(..).len(..)
.add_buffer(..).null_bit_buffer(..).add_child_data(..).build()`; that call
chain is modelled here as one function taking the same data. -/
def ArrayData.build (dt : DataType) (len : Nat) (bufs : List (List Nat))
    (bm : Option (List Nat)) (ch : List ArrayData) : Except ArrowError ArrayData :=
  match dt with
  | .boolean | .int32 | .int64 | .float64 =>
    match bufs, ch with
    | [vals], [] =>
      if primitiveByteSize dt len ≤ vals.length && bitmapOk bm len then
        .ok (.mk dt len 0 bufs bm ch)
      else .error .layoutError
    | _, _ => .error .layoutError
  | .utf8 =>
    match bufs, ch with
    | [offs, data], [] =>
      if 4 * (len + 1) ≤ offs.length && offsetsMonotone offs len &&
          0 ≤ offDecode offs 0 && (offDecode offs len).toNat ≤ data.length &&
          bitmapOk bm len then
        .ok (.mk dt len 0 bufs bm ch)
      else .error .layoutError
    | _, _ => .error .layoutError
  | .list _ =>
    match bufs, ch with
    | [offs], [child] =>
      if 4 * (len + 1) ≤ offs.length && offsetsMonotone offs len &&
          0 ≤ offDecode offs 0 && (offDecode offs len).toNat ≤ child.length &&
          bitmapOk bm len then
        .ok (.mk dt len 0 bufs bm ch)
      else .error .layoutError
    | _, _ => .error .layoutError
  | .strct fields =>
    match bufs with
    | [] =>
      if ch.length == fields.length && ch.all (fun c => c.length == len) &&
          bitmapOk bm len then
        .ok (.mk dt len 0 bufs bm ch)
      else .error .layoutError
    | _ => .error .layoutError

/-- Zero-copy slice of an `ArrayData` (spec section 4.3): fails with
`RangeError` when `offset + length` exceeds the current length, otherwise
shares the buffers with adjusted offset and length. -/
def ArrayData.slice (a : ArrayData) (off len : Nat) : Except ArrowError ArrayData :=
  if off + len ≤ a.length then
    .ok (.mk a.dataType len (a.offset + off) a.buffers a.nullBitmap a.children)
  else .error .rangeError

/-- `is_null(i)` of a typed view (spec section 4.4): reads the view's
`ArrayData` null bitmap at logical offset plus `i`; "absence of a bitmap
means all valid" (spec section 3). -/
def arrayIsNull (a : ArrayData) (i : Nat) : Bool :=
  match a.nullBitmap with
  | none => false
  | some bm => !bitmapGet bm (a.offset + i)

/-- `len()` of a typed view (spec section 4.4). -/
def arrayLen (a : ArrayData) : Nat :=
  a.length

/-- Modelled from the spec: `value(i)` of the `Primitive<Int32>` typed view
(spec section 4.4) — fails with `NullAccessError` when `is_null(i)`,
otherwise reinterprets the 4 bytes of slot `offset + i` of the values
buffer; out-of-range access fails with `RangeError`. -/
def Int32Array.value (a : ArrayData) (i : Nat) : Except ArrowError Int :=
  if i < a.length then
    if arrayIsNull a i then .error .nullAccessError
    else .ok (offDecode (a.buffers.getD 0 []) (a.offset + i))
  else .error .rangeError

/-- All `len()` elements of an Int32 view, each an `Except`. -/
def Int32Array.toList (a : ArrayData) : List (Except ArrowError Int) :=
  (List.range a.length).map (Int32Array.value a)

/-- A UTF-8 continuation byte (`0x80..0xBF`). -/
def utf8Cont (b : Nat) : Bool :=
  128 ≤ b && b ≤ 191

/-- Validity of a byte sequence as UTF-8 text (RFC 3629): one-byte ASCII,
two-byte leads `0xC2..0xDF`, three-byte leads `0xE0..0xEF` (with the
restricted second-byte ranges that exclude overlong forms and surrogates),
four-byte leads `0xF0..0xF4` (with the ranges that exclude overlong forms
and code points above `U+10FFFF`); everything else is invalid. -/
def utf8Valid : List Nat → Bool
  | [] => true
  | b :: rest =>
    if b < 128 then utf8Valid rest
    else if 194 ≤ b && b ≤ 223 then
      match rest with
      | c1 :: r => utf8Cont c1 && utf8Valid r
      | [] => false
    else if b == 224 then
      match rest with
      | c1 :: c2 :: r => (160 ≤ c1 && c1 ≤ 191) && utf8Cont c2 && utf8Valid r
      | _ => false
    else if (225 ≤ b && b ≤ 236) || (238 ≤ b && b ≤ 239) then
      match rest with
      | c1 :: c2 :: r => utf8Cont c1 && utf8Cont c2 && utf8Valid r
      | _ => false
    else if b == 237 then
      match rest with
      | c1 :: c2 :: r => (128 ≤ c1 && c1 ≤ 159) && utf8Cont c2 && utf8Valid r
      | _ => false
    else if b == 240 then
      match rest with
      | c1 :: c2 :: c3 :: r =>
        (144 ≤ c1 && c1 ≤ 191) && utf8Cont c2 && utf8Cont c3 && utf8Valid r
      | _ => false
    else if 241 ≤ b && b ≤ 243 then
      match rest with
      | c1 :: c2 :: c3 :: r =>
        utf8Cont c1 && utf8Cont c2 && utf8Cont c3 && utf8Valid r
      | _ => false
    else if b == 244 then
      match rest with
      | c1 :: c2 :: c3 :: r =>
        (128 ≤ c1 && c1 ≤ 143) && utf8Cont c2 && utf8Cont c3 && utf8Valid r
      | _ => false
    else false

/-- The byte slice `offsets[i]..offsets[i+1]` of slot `offset + i` of the
data buffer of a Utf8 array. -/
def utf8Slot (a : ArrayData) (i : Nat) : List Nat :=
  ((a.buffers.getD 1 []).drop
      (offDecode (a.buffers.getD 0 []) (a.offset + i)).toNat).take
    ((offDecode (a.buffers.getD 0 []) (a.offset + i + 1)).toNat
      - (offDecode (a.buffers.getD 0 []) (a.offset + i)).toNat)

/-- Modelled from the spec: `value(i)` of the Utf8 typed view (spec section
4.4) — fails `NullAccessError` on a null slot, otherwise "slices the data
buffer using `offsets[i]..offsets[i+1]` and decodes as text; fails with
`EncodingError` on invalid byte sequences".  The decoded text is
represented by its UTF-8 bytes (the identity on the stored slice), so
decoding amounts to validating the slice. -/
def Utf8Array.value (a : ArrayData) (i : Nat) : Except ArrowError (List Nat) :=
  if i < a.length then
    if arrayIsNull a i then .error .nullAccessError
    else if utf8Valid (utf8Slot a i) then .ok (utf8Slot a i)
    else .error .encodingError
  else .error .rangeError

/-- Modelled from the spec: `value(i)` of the List typed view — fails
`NullAccessError` when `is_null(i)` (the generic `value(i)` contract of
spec section 4.4), otherwise "returns the child array sliced to
`offsets[i]..offsets[i+1]` (zero-copy)". -/
def ListArray.value (a : ArrayData) (i : Nat) : Except ArrowError ArrayData :=
  if i < a.length then
    if arrayIsNull a i then .error .nullAccessError
    else
      let offs := a.buffers.getD 0 []
      let s := (offDecode offs (a.offset + i)).toNat
      let e := (offDecode offs (a.offset + i + 1)).toNat
      match a.children with
      | [child] => child.slice s (e - s)
      | _ => .error .layoutError
  else .error .rangeError

/-- Modelled from the spec: `field(name)` of the Struct typed view — looks
the name up in the struct's fields and returns the matching child (spec
section 4.4). -/
def StructArray.field (a : ArrayData) (name : String) : Except ArrowError ArrayData :=
  match a.dataType with
  | .strct fields =>
    match (fields.zip a.children).find? (fun p => p.1.1 == name) with
    | some p => .ok p.2
    | none => .error .typeMismatchError
  | _ => .error .typeMismatchError

/-- Modelled from the spec: the `StructArray::from` helper over `(Field,
child array)` pairs (used at src/src/main.rs:181) — "all children share the
struct's logical length" (spec section 4.4); no null bitmap is supplied, so
the struct has none. Mismatched child lengths fail with `LayoutError`
(spec section 8). -/
def StructArray.fromPairs (pairs : List (ArrowField × ArrayData)) :
    Except ArrowError ArrayData :=
  match pairs with
  | [] => .error .layoutError
  | (_, c) :: rest =>
    if rest.all (fun p => p.2.length == c.length) then
      .ok (.mk (.strct (pairs.map (fun p => p.1))) c.length 0 [] none
        (pairs.map (fun p => p.2)))
    else .error .layoutError

/-- Modelled from the spec: the `Int32Builder` state (spec section 4.5) —
accumulated values scratch buffer and validity bits.  `append_null`
"appends a placeholder zero-value and records invalid in the bitmap", so the
values list always has one entry per logical slot. -/
structure Int32Builder where
  values : List Int
  bitmap : List Bool

/-- `Int32Builder::new(capacity)` (src/src/main.rs:17): the capacity is a
growth hint only and is not observable (growth-by-doubling never changes
contents), so the builder starts empty. -/
def Int32Builder.new (_capacity : Nat) : Int32Builder :=
  ⟨[], []⟩

/-- `append_value(v)`: appends one value and extends the bitmap with
"valid" (spec section 4.5). -/
def Int32Builder.append_value (b : Int32Builder) (v : Int) : Int32Builder :=
  ⟨b.values ++ [v], b.bitmap ++ [true]⟩

/-- `append_null()`: appends a placeholder zero-value and records "invalid"
(spec section 4.5). -/
def Int32Builder.append_null (b : Int32Builder) : Int32Builder :=
  ⟨b.values ++ [0], b.bitmap ++ [false]⟩

/-- `append_slice(values)`: bulk append of a slice of values, all valid
(spec section 4.5); modelled as the bulk buffer write the implementation
performs, so its equivalence to repeated `append_value` is a theorem. -/
def Int32Builder.append_slice (b : Int32Builder) (vs : List Int) : Int32Builder :=
  ⟨b.values ++ vs, b.bitmap ++ List.replicate vs.length true⟩

/-- The builder's current logical length (number of appended slots). -/
def Int32Builder.len (b : Int32Builder) : Nat :=
  b.bitmap.length

/-- Modelled from the spec: `finish()` (spec section 4.5) — freezes the
accumulated scratch buffers into immutable buffers (values encoded 4 bytes
per slot, validity bits packed LSB-first), wraps them into an `ArrayData`,
and resets the builder to its initial empty state. -/
def Int32Builder.finish (b : Int32Builder) : ArrayData × Int32Builder :=
  (.mk .int32 b.bitmap.length 0 [b.values.flatMap i32ToBytesLE]
      (some (packBits b.bitmap)) [],
    ⟨[], []⟩)

/-- Modelled from the spec: the `StringBuilder` state (spec section 4.5) —
offsets scratch (one leading zero plus one end offset per slot), data bytes,
and validity bits.  `append_null` "appends a zero-length slice", i.e. a
repeated end offset. -/
structure StringBuilder where
  offsets : List Int
  data : List Nat
  bitmap : List Bool

def StringBuilder.new : StringBuilder :=
  ⟨[0], [], []⟩

/-- `append_value(s)` for Utf8: appends the bytes and the new end offset,
extends the bitmap with "valid" (spec section 4.5). -/
def StringBuilder.append_value (b : StringBuilder) (s : List Nat) : StringBuilder :=
  ⟨b.offsets ++ [((b.data.length + s.length : Nat) : Int)], b.data ++ s,
    b.bitmap ++ [true]⟩

/-- `append_null()` for Utf8: appends a zero-length slice (repeated end
offset) and records "invalid" (spec section 4.5). -/
def StringBuilder.append_null (b : StringBuilder) : StringBuilder :=
  ⟨b.offsets ++ [((b.data.length : Nat) : Int)], b.data, b.bitmap ++ [false]⟩

/-- Modelled from the spec: `finish()` for the string builder — freezes the
offsets (4-byte signed little-endian each) and data scratch buffers and the
packed bitmap into an Utf8 `ArrayData`, and resets the builder. -/
def StringBuilder.finish (b : StringBuilder) : ArrayData × StringBuilder :=
  (.mk .utf8 b.bitmap.length 0 [b.offsets.flatMap i32ToBytesLE, b.data]
      (some (packBits b.bitmap)) [],
    StringBuilder.new)

/-- One append operation on an Int32 builder: a value or a null marker. -/
inductive AppendOp where
  | val (v : Int)
  | nul
  deriving DecidableEq

/-- The value a builder stores for an op (nulls store the placeholder 0). -/
def AppendOp.storedVal : AppendOp → Int
  | .val v => v
  | .nul => 0

/-- The validity bit a builder records for an op. -/
def AppendOp.isVal : AppendOp → Bool
  | .val _ => true
  | .nul => false

/-- Apply a sequence of append operations to a builder, in order. -/
def Int32Builder.runOps (b : Int32Builder) (ops : List AppendOp) : Int32Builder :=
  ops.foldl
    (fun b op =>
      match op with
      | .val v => b.append_value v
      | .nul => b.append_null)
    b

/-- One command of the imperative builder session of `src/src/main.rs`
(appends mutate the builder; `finish` hands out an array and resets it). -/
inductive BuilderCmd where
  | val (v : Int)
  | nul
  | slice (vs : List Int)
  | finish

/-- The observable state of a builder session: the (mutable) builder plus
every array handed out by `finish()` so far. -/
structure World where
  builder : Int32Builder
  finished : List ArrayData

/-- Execute one command: appends touch only the builder; `finish` appends
the frozen array to the outputs and resets the builder (spec section 4.5). -/
def World.step (w : World) : BuilderCmd → World
  | .val v => ⟨w.builder.append_value v, w.finished⟩
  | .nul => ⟨w.builder.append_null, w.finished⟩
  | .slice vs => ⟨w.builder.append_slice vs, w.finished⟩
  | .finish => ⟨w.builder.finish.2, w.finished ++ [w.builder.finish.1]⟩

/-- Execute a command sequence, in order. -/
def World.run (w : World) (cmds : List BuilderCmd) : World :=
  cmds.foldl World.step w

/-- The exact append sequence of src/src/main.rs lines 23-31: three values,
a null, the slice `[1, 2, 3]`, a null, then the slice `0..10`. -/
def demoBuilder : Int32Builder :=
  (((((((Int32Builder.new 20).append_value 5).append_value 10000).append_value
    2000000).append_null).append_slice [1, 2, 3]).append_null).append_slice
    ((List.range 10).map (fun n => (n : Int)))

/-- The array produced at src/src/main.rs line 35. -/
def demoArray : ArrayData :=
  demoBuilder.finish.1

/-- The UTF-8 bytes of `"hello"`. -/
def helloBytes : List Nat := [104, 101, 108, 108, 111]

/-- The UTF-8 bytes of `"parquet"`. -/
def parquetBytes : List Nat := [112, 97, 114, 113, 117, 101, 116]

/-- The Utf8 array for the sequence `["hello", null, "parquet"]` of
src/src/main.rs lines 119-144, built through the string builder. -/
def stringDemoArray : ArrayData :=
  (((StringBuilder.new.append_value helloBytes).append_null).append_value
    parquetBytes).finish.1

/-- Byte contents of the child values buffer of src/src/main.rs line 155:
the nine Int32 values `[0, .., 8]` encoded little-endian. -/
def listDemoValueBytes : List Nat :=
  ([0, 1, 2, 3, 4, 5, 6, 7, 8] : List Int).flatMap i32ToBytesLE

/-- The child Int32 `ArrayData` of src/src/main.rs lines 153-156 (length 8
over the nine-value buffer). -/
def listDemoValues : ArrayData :=
  .mk .int32 8 0 [listDemoValueBytes] none []

/-- Byte contents of the offsets buffer `[0, 3, 6, 8]` of
src/src/main.rs line 158. -/
def listDemoOffsets : List Nat :=
  ([0, 3, 6, 8] : List Int).flatMap i32ToBytesLE

/-- The List `ArrayData` of src/src/main.rs lines 164-169. -/
def listDemoData : ArrayData :=
  .mk (.list .int32) 3 0 [listDemoOffsets] none [listDemoValues]

/-- The Boolean child of src/src/main.rs lines 194-198. -/
def booleanDemoData : ArrayData :=
  .mk .boolean 5 0 [[0b00010000]] (some [0b00010001]) []

/-- The first Int32 child of src/src/main.rs lines 200-204. -/
def intDemoDataB : ArrayData :=
  .mk .int32 5 0 [([0, 28, 42, 0, 0] : List Int).flatMap i32ToBytesLE]
    (some [0b00000110]) []

/-- The second Int32 child of src/src/main.rs lines 206-210. -/
def intDemoDataC : ArrayData :=
  .mk .int32 5 0 [([1, 2, 3, 4, 5] : List Int).flatMap i32ToBytesLE]
    (some [0b00011111]) []

/-- The field list of src/src/main.rs lines 212-215. -/
def structDemoFields : List ArrowField :=
  [ArrowField.new "a" .boolean false, ArrowField.new "b" .int32 false,
    ArrowField.new "c" .int32 false]

/-- The children of the struct of src/src/main.rs lines 217-223. -/
def structDemoChildren : List ArrayData :=
  [booleanDemoData, intDemoDataB, intDemoDataC]

/-- The struct `ArrayData` of src/src/main.rs lines 217-223: length 5,
all-zero null-bit byte, three children. -/
def structDemoData : ArrayData :=
  .mk (.strct structDemoFields) 5 0 [] (some [0b00000000]) structDemoChildren

/-- The Boolean child array of src/src/main.rs line 184:
`BooleanArray::from(vec![false, false, true, true])` (bit-packed values,
no null bitmap). -/
def boolPairsChild : ArrayData :=
  .mk .boolean 4 0 [packBits [false, false, true, true]] none []

/-- The Int32 child array of src/src/main.rs line 188:
`Int32Array::from(vec![42, 28, 19, 31])`. -/
def intPairsChild : ArrayData :=
  .mk .int32 4 0 [([42, 28, 19, 31] : List Int).flatMap i32ToBytesLE] none []

/-- The `(Field, child)` pairs of src/src/main.rs lines 181-190. -/
def demoPairs : List (ArrowField × ArrayData) :=
  [(ArrowField.new "b" .boolean false, boolPairsChild),
    (ArrowField.new "c" .int32 false, intPairsChild)]

theorem testBit_byteOfBits (l : List Bool) (j : Nat) :
    Nat.testBit (byteOfBits l) j = l.getD j false := by
  induction l generalizing j with
  | nil => simp [byteOfBits]
  | cons b t ih =>
    have hunf : byteOfBits (b :: t) = (cond b 1 0) + 2 * byteOfBits t := rfl
    cases j with
    | zero =>
      rw [hunf, Nat.testBit_zero, List.getD_cons_zero]
      cases b <;> simp
    | succ j =>
      rw [hunf, Nat.testBit_succ, List.getD_cons_succ]
      have hdiv : ((cond b 1 0) + 2 * byteOfBits t) / 2 = byteOfBits t := by
        cases b <;> simp [Nat.add_mul_div_left]
      rw [hdiv, ih]

theorem bitmapGet_packBits (bs : List Bool) (i : Nat) (h : i < bs.length) :
    bitmapGet (packBits bs) i = bs.getD i false := by
  have hlt : i / 8 < (bs.length + 7) / 8 := by omega
  have hgd : (packBits bs).getD (i / 8) 0 =
      byteOfBits ((bs.drop (8 * (i / 8))).take 8) := by
    rw [packBits]
    rw [List.getD_eq_getElem _ _ (by simpa using hlt)]
    simp
  rw [bitmapGet, hgd, testBit_byteOfBits]
  rw [List.getD_eq_getElem?_getD, List.getD_eq_getElem?_getD,
    List.getElem?_take_of_lt (Nat.mod_lt _ (by norm_num)),
    List.getElem?_drop]
  have : 8 * (i / 8) + i % 8 = i := by omega
  rw [this]

theorem i32FromBytesLE_four (b0 b1 b2 b3 : Nat) (r : List Nat) :
    i32FromBytesLE (b0 :: b1 :: b2 :: b3 :: r) =
      if b0 % 256 + 256 * (b1 % 256) + 65536 * (b2 % 256) +
          16777216 * (b3 % 256) < 2147483648 then
        ((b0 % 256 + 256 * (b1 % 256) + 65536 * (b2 % 256) +
          16777216 * (b3 % 256) : Nat) : Int)
      else ((b0 % 256 + 256 * (b1 % 256) + 65536 * (b2 % 256) +
          16777216 * (b3 % 256) : Nat) : Int) - 4294967296 := rfl

theorem i32_roundtrip (v : Int) (h1 : -2147483648 ≤ v) (h2 : v < 2147483648) :
    i32FromBytesLE (i32ToBytesLE v) = v := by
  rw [i32ToBytesLE]
  rw [i32FromBytesLE_four]
  have hnn : 0 ≤ v.emod 4294967296 := Int.emod_nonneg v (by norm_num)
  have hlt : v.emod 4294967296 < 4294967296 :=
    Int.emod_lt_of_pos v (by norm_num)
  set u := (v.emod 4294967296).toNat with hu
  have hu32 : u < 4294967296 := by omega
  have hrec : u % 256 % 256 + 256 * (u / 256 % 256 % 256) +
      65536 * (u / 65536 % 256 % 256) +
      16777216 * (u / 16777216 % 256 % 256) = u := by omega
  rw [hrec]
  have huv : (u : Int) = v.emod 4294967296 := by omega
  have hcases : v.emod 4294967296 = v ∨ v.emod 4294967296 = v + 4294967296 := by
    rcases le_or_lt 0 v with hv | hv
    · exact Or.inl (Int.emod_eq_of_lt hv (by omega))
    · refine Or.inr ?_
      have h0 := @Int.add_mul_emod_self_left v 4294967296 1
      rw [mul_one] at h0
      show v % 4294967296 = v + 4294967296
      rw [← h0]
      exact Int.emod_eq_of_lt (by omega) (by omega)
  rcases hcases with hc | hc
  · rw [hc] at huv
    split
    · omega
    · omega
  · rw [hc] at huv
    split
    · omega
    · omega

theorem length_i32ToBytesLE (v : Int) : (i32ToBytesLE v).length = 4 := rfl

theorem flatMap_i32_segment (vs : List Int) (i : Nat) (h : i < vs.length) :
    ((vs.flatMap i32ToBytesLE).drop (4 * i)).take 4 = i32ToBytesLE (vs.getD i 0) := by
  induction vs generalizing i with
  | nil => simp at h
  | cons v t ih =>
    cases i with
    | zero =>
      rw [List.flatMap_cons, Nat.mul_zero, List.drop_zero, List.getD_cons_zero]
      exact List.take_left' (length_i32ToBytesLE v)
    | succ j =>
      rw [List.flatMap_cons, List.getD_cons_succ]
      have hdrop : (i32ToBytesLE v ++ t.flatMap i32ToBytesLE).drop (4 * (j + 1)) =
          (t.flatMap i32ToBytesLE).drop (4 * j) := by
        have h4 : 4 * (j + 1) = 4 + 4 * j := by ring
        rw [h4, ← List.drop_drop, List.drop_left' (length_i32ToBytesLE v)]
      rw [hdrop]
      exact ih j (by simpa using Nat.lt_of_succ_lt_succ (by simpa using h))

theorem offDecode_flatMap (vs : List Int) (i : Nat) (h : i < vs.length)
    (hlo : -2147483648 ≤ vs.getD i 0) (hhi : vs.getD i 0 < 2147483648) :
    offDecode (vs.flatMap i32ToBytesLE) i = vs.getD i 0 := by
  rw [offDecode, flatMap_i32_segment vs i h, i32_roundtrip _ hlo hhi]

theorem runOps_spec (ops : List AppendOp) (b : Int32Builder) :
    Int32Builder.runOps b ops =
      ⟨b.values ++ ops.map AppendOp.storedVal, b.bitmap ++ ops.map AppendOp.isVal⟩ := by
  induction ops generalizing b with
  | nil => simp [Int32Builder.runOps]
  | cons op t ih =>
    cases op with
    | val v =>
      rw [Int32Builder.runOps, List.foldl_cons]
      have := ih (b.append_value v)
      rw [Int32Builder.runOps] at this
      rw [this]
      simp [Int32Builder.append_value, AppendOp.storedVal, AppendOp.isVal]
    | nul =>
      rw [Int32Builder.runOps, List.foldl_cons]
      have := ih b.append_null
      rw [Int32Builder.runOps] at this
      rw [this]
      simp [Int32Builder.append_null, AppendOp.storedVal, AppendOp.isVal]

theorem getD_map_of_lt {α β : Type} (f : α → β) (l : List α) (i : Nat) (d : α)
    (h : i < l.length) : (l.map f).getD i (f d) = f (l.getD i d) := by
  rw [List.getD_eq_getElem _ _ (by simpa using h), List.getElem_map,
    List.getD_eq_getElem _ _ h]

/-- C9: for every builder state and every sequence of values,
`append_slice(vs)` leaves the builder in exactly the same state (values,
bitmap, and hence length) as folding `append_value` over `vs` in order. -/
theorem claim9_append_slice_is_repeated_append_value (b : Int32Builder)
    (vs : List Int) :
    Int32Builder.append_slice b vs = vs.foldl Int32Builder.append_value b := by
  induction vs generalizing b with
  | nil => simp [Int32Builder.append_slice]
  | cons v t ih =>
    rw [List.foldl_cons, ← ih]
    simp [Int32Builder.append_slice, Int32Builder.append_value,
      List.replicate_succ]

theorem run_finished_prefix (cmds : List BuilderCmd) (w : World) :
    ((w.run cmds).finished).take w.finished.length = w.finished := by
  induction cmds generalizing w with
  | nil => simp [World.run]
  | cons c t ih =>
    have hrun : w.run (c :: t) = (w.step c).run t := rfl
    rw [hrun]
    cases c with
    | finish =>
      have hlen : w.finished.length ≤ (w.step BuilderCmd.finish).finished.length := by
        simp [World.step]
      have h2 := ih (w.step BuilderCmd.finish)
      have h3 : (((w.step BuilderCmd.finish).run t).finished).take w.finished.length
          = ((((w.step BuilderCmd.finish).run t).finished).take
              (w.step BuilderCmd.finish).finished.length).take w.finished.length := by
        rw [List.take_take, Nat.min_eq_left hlen]
      rw [h3, h2]
      simp [World.step, List.take_left]
    | val v => exact ih (w.step (BuilderCmd.val v))
    | nul => exact ih (w.step BuilderCmd.nul)
    | slice vs => exact ih (w.step (BuilderCmd.slice vs))

/-- C2: after `finish()` the builder's length is zero, a second `finish()`
with no intervening appends yields a zero-length array, and no sequence of
further commands changes any array previously returned by `finish()` (the
previously-output list is a stable prefix of the session's outputs). -/
theorem claim2_builder_reuse (w : World) :
    Int32Builder.len ((w.step BuilderCmd.finish).builder) = 0 ∧
    arrayLen ((w.step BuilderCmd.finish).builder.finish.1) = 0 ∧
    ∀ cmds, (((w.step BuilderCmd.finish).run cmds).finished).take
        ((w.step BuilderCmd.finish).finished).length
      = (w.step BuilderCmd.finish).finished :=
  ⟨rfl, rfl, fun cmds => run_finished_prefix cmds (w.step BuilderCmd.finish)⟩

/-- C1: for every interleaving of values and null markers appended to a
fresh builder, `finish()` yields an array of the same length whose
`is_null(i)` is true exactly at the appended null positions and whose
`value(i)` returns the `i`-th appended value at every value position. -/
theorem claim1_builder_roundtrip (ops : List AppendOp)
    (hrange : ∀ v, AppendOp.val v ∈ ops → -2147483648 ≤ v ∧ v < 2147483648) :
    arrayLen ((Int32Builder.runOps (Int32Builder.new 20) ops).finish.1) = ops.length ∧
    (∀ i, i < ops.length →
      arrayIsNull ((Int32Builder.runOps (Int32Builder.new 20) ops).finish.1) i
        = !(ops.getD i AppendOp.nul).isVal) ∧
    (∀ i v, i < ops.length → ops.getD i AppendOp.nul = AppendOp.val v →
      Int32Array.value ((Int32Builder.runOps (Int32Builder.new 20) ops).finish.1) i
        = .ok v) := by
  have harr : (Int32Builder.runOps (Int32Builder.new 20) ops).finish.1 =
      ArrayData.mk .int32 (ops.map AppendOp.isVal).length 0
        [(ops.map AppendOp.storedVal).flatMap i32ToBytesLE]
        (some (packBits (ops.map AppendOp.isVal))) [] := by
    rw [runOps_spec]
    rfl
  refine ⟨?_, ?_, ?_⟩
  · rw [harr]
    simp [arrayLen, ArrayData.length]
  · intro i hi
    rw [harr]
    have hnull : arrayIsNull
        (ArrayData.mk .int32 (ops.map AppendOp.isVal).length 0
          [(ops.map AppendOp.storedVal).flatMap i32ToBytesLE]
          (some (packBits (ops.map AppendOp.isVal))) []) i
        = !bitmapGet (packBits (ops.map AppendOp.isVal)) (0 + i) := rfl
    rw [hnull, Nat.zero_add, bitmapGet_packBits _ i (by simpa using hi)]
    exact congrArg Bool.not (getD_map_of_lt AppendOp.isVal ops i AppendOp.nul hi)
  · intro i v hi hv
    have hg : ops.getD i AppendOp.nul = ops[i] :=
      List.getD_eq_getElem _ _ hi
    have hmem : AppendOp.val v ∈ ops := by
      rw [hg] at hv
      exact hv ▸ List.getElem_mem hi
    obtain ⟨hlo, hhi⟩ := hrange v hmem
    rw [harr]
    have hbits : (ops.map AppendOp.isVal).getD i false = true := by
      have h1 := getD_map_of_lt AppendOp.isVal ops i AppendOp.nul hi
      rw [hv] at h1
      exact h1
    have hvals : (ops.map AppendOp.storedVal).getD i 0 = v := by
      have h1 := getD_map_of_lt AppendOp.storedVal ops i AppendOp.nul hi
      rw [hv] at h1
      exact h1
    have hnn : arrayIsNull
        (ArrayData.mk .int32 (ops.map AppendOp.isVal).length 0
          [(ops.map AppendOp.storedVal).flatMap i32ToBytesLE]
          (some (packBits (ops.map AppendOp.isVal))) []) i = false := by
      have hnull : arrayIsNull
          (ArrayData.mk .int32 (ops.map AppendOp.isVal).length 0
            [(ops.map AppendOp.storedVal).flatMap i32ToBytesLE]
            (some (packBits (ops.map AppendOp.isVal))) []) i
          = !bitmapGet (packBits (ops.map AppendOp.isVal)) (0 + i) := rfl
      rw [hnull, Nat.zero_add, bitmapGet_packBits _ i (by simpa using hi), hbits]
      rfl
    have hdec : offDecode ((ops.map AppendOp.storedVal).flatMap i32ToBytesLE) i = v := by
      rw [offDecode_flatMap _ i (by simpa using hi)] <;> rw [hvals]
      · exact hlo
      · exact hhi
    rw [Int32Array.value]
    rw [if_pos (by simpa [ArrayData.length] using hi)]
    rw [if_neg (by rw [hnn]; simp)]
    show Except.ok (offDecode ((ops.map AppendOp.storedVal).flatMap i32ToBytesLE) (0 + i)) = _
    rw [Nat.zero_add, hdec]

/-- Witness for C1 at the sequence `[value 7, null]`. -/
theorem claim1_builder_roundtrip_witness :
    arrayLen ((Int32Builder.runOps (Int32Builder.new 20)
        [AppendOp.val 7, AppendOp.nul]).finish.1) = 2 ∧
    Int32Array.value ((Int32Builder.runOps (Int32Builder.new 20)
        [AppendOp.val 7, AppendOp.nul]).finish.1) 0 = .ok 7 := by
  have h := claim1_builder_roundtrip [AppendOp.val 7, AppendOp.nul]
    (by
      intro v hv
      rcases List.mem_cons.1 hv with h1 | h1
      · rw [AppendOp.val.injEq] at h1
        omega
      · simp at h1)
  exact ⟨h.1, h.2.2 0 7 (by norm_num) rfl⟩

/-- C3 counterexample: the append sequence of src/src/main.rs lines 23-31
appends 3 + 1 + 3 + 1 + 10 = 18 slots, so the finished array has length 18
and not 16 as the claim states. -/
theorem claim3_length_is_18_not_16 :
    arrayLen demoArray = 18 ∧ ¬(arrayLen demoArray = 16) := by
  decide

/-- C3 (amended): appending `[5, 10000, 2000000]`, a null, `[1, 2, 3]`, a
null, then `0..10` to an Int32 builder and finishing yields an array of
length 18 whose value at each valid index equals the corresponding appended
integer and whose null slots are exactly indices 3 and 7. -/
theorem claim3_primitive_demo :
    arrayLen demoArray = 18 ∧
    (∀ i, i < 18 → (arrayIsNull demoArray i = decide (i = 3 ∨ i = 7))) ∧
    Int32Array.toList demoArray =
      [.ok 5, .ok 10000, .ok 2000000, .error .nullAccessError, .ok 1, .ok 2,
        .ok 3, .error .nullAccessError, .ok 0, .ok 1, .ok 2, .ok 3, .ok 4,
        .ok 5, .ok 6, .ok 7, .ok 8, .ok 9] :=
  ⟨by decide, by decide, by rfl⟩

/-- C4: building `["hello", null, "parquet"]` yields the offsets buffer
`[0, 5, 5, 12]` (4-byte signed integers), a 12-byte data buffer, and the
null bitmap byte `0b00000101` over 3 slots, which read LSB-first marks
slots 0 and 2 valid and slot 1 null; the resulting `ArrayData` passes
construction and reads back the same sequence. -/
theorem claim4_utf8_demo :
    stringDemoArray.buffers.getD 0 [] =
      ([0, 5, 5, 12] : List Int).flatMap i32ToBytesLE ∧
    (stringDemoArray.buffers.getD 1 []).length = 12 ∧
    stringDemoArray.nullBitmap = some [0b00000101] ∧
    arrayLen stringDemoArray = 3 ∧
    (∀ i, i < 3 → (arrayIsNull stringDemoArray i = decide (i = 1))) ∧
    bitmapGet [0b00000101] 0 = true ∧
    bitmapGet [0b00000101] 1 = false ∧
    bitmapGet [0b00000101] 2 = true ∧
    ArrayData.build DataType.utf8 3 stringDemoArray.buffers
      stringDemoArray.nullBitmap [] = .ok stringDemoArray ∧
    Utf8Array.value stringDemoArray 0 = .ok helloBytes ∧
    Utf8Array.value stringDemoArray 1 = .error .nullAccessError ∧
    Utf8Array.value stringDemoArray 2 = .ok parquetBytes :=
  ⟨by rfl, by rfl, by rfl, by rfl, by decide, by decide, by decide, by decide,
    by rfl, by rfl, by rfl, by rfl⟩

/-- C6: the List array over child values `[0, .., 7]` (length 8) with
offsets `[0, 3, 6, 8]` passes construction, has length 3, and its logical
elements — the child sliced to `offsets[i]..offsets[i+1]` — read back as
`[0, 1, 2]`, `[3, 4, 5]` and `[6, 7]`. -/
theorem claim6_list_demo :
    ArrayData.build DataType.int32 8 [listDemoValueBytes] none []
      = .ok listDemoValues ∧
    ArrayData.build (DataType.list DataType.int32) 3 [listDemoOffsets] none
      [listDemoValues] = .ok listDemoData ∧
    arrayLen listDemoData = 3 ∧
    (ListArray.value listDemoData 0).map Int32Array.toList
      = .ok [.ok 0, .ok 1, .ok 2] ∧
    (ListArray.value listDemoData 1).map Int32Array.toList
      = .ok [.ok 3, .ok 4, .ok 5] ∧
    (ListArray.value listDemoData 2).map Int32Array.toList
      = .ok [.ok 6, .ok 7] :=
  ⟨by rfl, by rfl, by rfl, by rfl, by rfl, by rfl⟩

/-- C7: every child of a successfully built struct `ArrayData` has the
struct's logical length; `is_null` of a struct view depends only on the
struct-level bitmap and not on its children; and concretely the struct of
src/src/main.rs lines 217-223 (null-bit byte `0b00000000` over length 5)
has all five slots null while its third child is valid at every index. -/
theorem claim7_struct_length_and_authoritative_bitmap :
    (∀ fields len bufs bm ch a,
      ArrayData.build (DataType.strct fields) len bufs bm ch = .ok a →
      ∀ c ∈ ch, arrayLen c = len) ∧
    (∀ dt len off bufs bm ch ch' i,
      arrayIsNull (.mk dt len off bufs bm ch) i
        = arrayIsNull (.mk dt len off bufs bm ch') i) ∧
    ArrayData.build (DataType.strct structDemoFields) 5 [] (some [0b00000000])
      structDemoChildren = .ok structDemoData ∧
    (∀ i, i < 5 → arrayIsNull structDemoData i = true) ∧
    (∀ i, i < 5 → arrayIsNull intDemoDataC i = false) := by
  refine ⟨?_, ?_, by rfl, by decide, by decide⟩
  · intro fields len bufs bm ch a h
    cases bufs with
    | cons b bs => simp [ArrayData.build] at h
    | nil =>
      rw [ArrayData.build] at h
      split at h
      · rename_i hcond
        rw [Bool.and_eq_true, Bool.and_eq_true] at hcond
        obtain ⟨⟨_, hall⟩, _⟩ := hcond
        intro c hc
        have hcl : c.length = len := by
          have h2 := List.all_eq_true.1 hall c hc
          simpa using h2
        exact hcl
      · exact absurd h (by simp)
  · intro dt len off bufs bm ch ch' i
    rfl

/-- Witness for C7 at the struct of src/src/main.rs lines 217-223. -/
theorem claim7_witness :
    arrayLen intDemoDataC = 5 ∧ arrayIsNull structDemoData 0 = true :=
  ⟨claim7_struct_length_and_authoritative_bitmap.1 structDemoFields 5 []
      (some [0b00000000]) structDemoChildren structDemoData (by rfl)
      intDemoDataC
      (by
        show intDemoDataC ∈ [booleanDemoData, intDemoDataB, intDemoDataC]
        exact List.mem_cons_of_mem _ (List.mem_cons_of_mem _
          (List.mem_cons_self _ _))),
    claim7_struct_length_and_authoritative_bitmap.2.2.2.1 0 (by norm_num)⟩

/-- C10: building a struct from `(Field, child)` pairs with no null bitmap
succeeds when the children share a common length, and the result has that
length and `is_null(i) = false` at every index (absent bitmap means every
slot is valid). -/
theorem claim10_from_pairs_all_valid (pairs : List (ArrowField × ArrayData))
    (n : Nat) (hne : pairs ≠ [])
    (hlen : ∀ p ∈ pairs, arrayLen p.2 = n) :
    ∃ a, StructArray.fromPairs pairs = .ok a ∧ arrayLen a = n ∧
      ∀ i, arrayIsNull a i = false := by
  cases pairs with
  | nil => exact absurd rfl hne
  | cons hd rest =>
    obtain ⟨f, c⟩ := hd
    have hc : arrayLen c = n := hlen (f, c) (List.mem_cons_self _ _)
    have hall : rest.all (fun p => p.2.length == c.length) = true := by
      rw [List.all_eq_true]
      intro p hp
      have hp2 := hlen p (List.mem_cons_of_mem _ hp)
      have hb : p.2.length = c.length := by
        show arrayLen p.2 = arrayLen c
        rw [hp2, hc]
      simp [hb]
    refine ⟨ArrayData.mk
        (.strct (((f, c) :: rest).map (fun p => p.1))) c.length 0 [] none
        (((f, c) :: rest).map (fun p => p.2)), ?_, hc, fun i => rfl⟩
    rw [StructArray.fromPairs]
    rw [if_pos hall]

/-- Witness for C10 at the pairs of src/src/main.rs lines 181-190. -/
theorem claim10_witness :
    ∃ a, StructArray.fromPairs demoPairs = .ok a ∧ arrayLen a = 4 ∧
      ∀ i, arrayIsNull a i = false :=
  claim10_from_pairs_all_valid demoPairs 4 (by simp [demoPairs]) (by decide)

theorem build_utf8_inv (len : Nat) (bufs : List (List Nat))
    (bm : Option (List Nat)) (ch : List ArrayData) (a : ArrayData)
    (h : ArrayData.build DataType.utf8 len bufs bm ch = .ok a) :
    ∃ offs data, bufs = [offs, data] ∧ ch = [] ∧
      offsetsMonotone offs len = true ∧
      a = .mk DataType.utf8 len 0 bufs bm ch := by
  cases bufs with
  | nil => simp [ArrayData.build] at h
  | cons offs rest =>
    cases rest with
    | nil => simp [ArrayData.build] at h
    | cons data rest2 =>
      cases rest2 with
      | cons x xs => simp [ArrayData.build] at h
      | nil =>
        cases ch with
        | cons c cs => simp [ArrayData.build] at h
        | nil =>
          rw [ArrayData.build] at h
          split at h
          · rename_i hcond
            rw [Bool.and_eq_true, Bool.and_eq_true, Bool.and_eq_true,
              Bool.and_eq_true] at hcond
            obtain ⟨⟨⟨⟨_, hmono⟩, _⟩, _⟩, _⟩ := hcond
            injection h with h
            exact ⟨offs, data, rfl, rfl, hmono, h.symm⟩
          · exact absurd h (by simp)

theorem build_list_inv (e : DataType) (len : Nat) (bufs : List (List Nat))
    (bm : Option (List Nat)) (ch : List ArrayData) (a : ArrayData)
    (h : ArrayData.build (DataType.list e) len bufs bm ch = .ok a) :
    ∃ offs child, bufs = [offs] ∧ ch = [child] ∧
      offsetsMonotone offs len = true ∧
      (offDecode offs len).toNat ≤ child.length ∧
      a = .mk (DataType.list e) len 0 bufs bm ch := by
  cases bufs with
  | nil => simp [ArrayData.build] at h
  | cons offs rest =>
    cases rest with
    | cons x xs => simp [ArrayData.build] at h
    | nil =>
      cases ch with
      | nil => simp [ArrayData.build] at h
      | cons child cs =>
        cases cs with
        | cons c2 cs2 => simp [ArrayData.build] at h
        | nil =>
          rw [ArrayData.build] at h
          split at h
          · rename_i hcond
            rw [Bool.and_eq_true, Bool.and_eq_true, Bool.and_eq_true,
              Bool.and_eq_true] at hcond
            obtain ⟨⟨⟨⟨_, hmono⟩, _⟩, hbound⟩, _⟩ := hcond
            injection h with h
            exact ⟨offs, child, rfl, rfl, hmono, of_decide_eq_true hbound, h.symm⟩
          · exact absurd h (by simp)

/-- Offsets bytes of the non-monotone sequence `[0, 5, 3, 12]`. -/
def badOffsetsBytes : List Nat :=
  ([0, 5, 3, 12] : List Int).flatMap i32ToBytesLE

/-- The list `ArrayData` of the C6 demo with a null bitmap marking slot 0
invalid (byte `0b00000110`: slots 1 and 2 valid). -/
def listNullDemoData : ArrayData :=
  .mk (.list .int32) 3 0 [listDemoOffsets] (some [0b00000110]) [listDemoValues]

theorem offsetsMonotone_le (buf : List Nat) (len : Nat)
    (h : offsetsMonotone buf len = true) :
    ∀ i j, i ≤ j → j ≤ len → offDecode buf i ≤ offDecode buf j := by
  intro i j
  induction j with
  | zero =>
    intro hij _
    have h0 : i = 0 := Nat.le_zero.1 hij
    subst h0
    exact le_refl _
  | succ j ih =>
    intro hij hjl
    rcases Nat.lt_or_ge i (j + 1) with hlt | hge
    · have hij2 : i ≤ j := Nat.lt_succ_iff.1 hlt
      have hstep : offDecode buf j ≤ offDecode buf (j + 1) :=
        of_decide_eq_true (List.all_eq_true.1 h j (List.mem_range.2 (by omega)))
      exact le_trans (ih hij2 (by omega)) hstep
    · have heq : i = j + 1 := Nat.le_antisymm hij hge
      subst heq
      exact le_refl _

theorem list_read_ok (e2 : DataType) (len : Nat) (offs : List Nat)
    (bm : Option (List Nat)) (child a : ArrayData)
    (h : ArrayData.build (DataType.list e2) len [offs] bm [child] = .ok a)
    (i : Nat) (hi : i < len) (hn : arrayIsNull a i = false) :
    ListArray.value a i = .ok (ArrayData.mk child.dataType
      ((offDecode offs (i + 1)).toNat - (offDecode offs i).toNat)
      (child.offset + (offDecode offs i).toNat)
      child.buffers child.nullBitmap child.children) := by
  obtain ⟨offs2, child2, hb2, hc2, hm, hd, ha⟩ :=
    build_list_inv e2 len [offs] bm [child] a h
  injection hb2 with hb2 _
  injection hc2 with hc2 _
  subst hb2
  subst hc2
  subst ha
  have hlt : i < (ArrayData.mk (DataType.list e2) len 0 [offs] bm
      [child]).length := hi
  have hnn : ¬(arrayIsNull (ArrayData.mk (DataType.list e2) len 0 [offs] bm
      [child]) i = true) := by
    rw [hn]
    simp
  rw [ListArray.value, if_pos hlt, if_neg hnn]
  simp only [ArrayData.buffers, ArrayData.offset, ArrayData.children,
    List.getD_cons_zero, Nat.zero_add]
  have hsle : offDecode offs i ≤ offDecode offs len :=
    offsetsMonotone_le offs len hm i len (Nat.le_of_lt hi) (le_refl len)
  have hele : offDecode offs (i + 1) ≤ offDecode offs len :=
    offsetsMonotone_le offs len hm (i + 1) len hi (le_refl len)
  have hbound : (offDecode offs i).toNat +
      ((offDecode offs (i + 1)).toNat - (offDecode offs i).toNat)
      ≤ child.length := by omega
  rw [ArrayData.slice, if_pos hbound]
  rfl

/-- C5: offsets of every successfully built Utf8 or List `ArrayData` are
monotone non-decreasing over its length; input whose offsets violate
monotonicity fails construction with `LayoutError`; and a violation never
surfaces at read time — an in-range read of a built Utf8 array can fail
only with `NullAccessError` or `EncodingError`, and of a built List array
only with `NullAccessError` (never `LayoutError`). -/
theorem claim5_offset_monotonicity :
    (∀ dt len bufs bm ch a,
      (dt = DataType.utf8 ∨ ∃ e, dt = DataType.list e) →
      ArrayData.build dt len bufs bm ch = .ok a →
      ∀ i, i < len →
        offDecode (a.buffers.getD 0 []) i
          ≤ offDecode (a.buffers.getD 0 []) (i + 1)) ∧
    (∀ dt len bufs bm ch,
      (dt = DataType.utf8 ∨ ∃ e, dt = DataType.list e) →
      offsetsMonotone (bufs.getD 0 []) len = false →
      ArrayData.build dt len bufs bm ch = .error .layoutError) ∧
    (∀ len offs data bm a e,
      ArrayData.build DataType.utf8 len [offs, data] bm [] = .ok a →
      ∀ i, i < len → Utf8Array.value a i = .error e →
      e = .nullAccessError ∨ e = .encodingError) ∧
    (∀ e2 len offs bm child a err,
      ArrayData.build (DataType.list e2) len [offs] bm [child] = .ok a →
      ∀ i, i < len → ListArray.value a i = .error err →
      err = .nullAccessError) := by
  refine ⟨?_, ?_, ?_, ?_⟩
  · intro dt len bufs bm ch a hdt h i hi
    have hmono : offsetsMonotone (bufs.getD 0 []) len = true ∧
        a.buffers = bufs := by
      rcases hdt with h8 | ⟨e, hl⟩
      · subst h8
        obtain ⟨offs, data, hb, _, hm, ha⟩ := build_utf8_inv len bufs bm ch a h
        subst hb
        subst ha
        exact ⟨hm, rfl⟩
      · subst hl
        obtain ⟨offs, child, hb, _, hm, _, ha⟩ := build_list_inv e len bufs bm ch a h
        subst hb
        subst ha
        exact ⟨hm, rfl⟩
    obtain ⟨hm, hbuf⟩ := hmono
    rw [hbuf]
    have h2 := List.all_eq_true.1 hm i (List.mem_range.2 hi)
    exact of_decide_eq_true h2
  · intro dt len bufs bm ch hdt hmono
    rcases hdt with h8 | ⟨e, hl⟩
    · subst h8
      cases bufs with
      | nil => rfl
      | cons offs rest =>
        rw [List.getD_cons_zero] at hmono
        cases rest with
        | nil => rfl
        | cons data rest2 =>
          cases rest2 with
          | cons x xs => rfl
          | nil =>
            cases ch with
            | cons c cs => rfl
            | nil =>
              rw [ArrayData.build]
              rw [if_neg]
              rw [hmono]
              simp
    · subst hl
      cases bufs with
      | nil => rfl
      | cons offs rest =>
        rw [List.getD_cons_zero] at hmono
        cases rest with
        | cons x xs => rfl
        | nil =>
          cases ch with
          | nil => rfl
          | cons child cs =>
            cases cs with
            | cons c2 cs2 => rfl
            | nil =>
              rw [ArrayData.build]
              rw [if_neg]
              rw [hmono]
              simp
  · intro len offs data bm a e h i hi hval
    obtain ⟨offs2, data2, _, _, _, ha⟩ := build_utf8_inv len [offs, data] bm [] a h
    subst ha
    have hlt : i < (ArrayData.mk DataType.utf8 len 0 [offs, data] bm []).length :=
      hi
    rw [Utf8Array.value, if_pos hlt] at hval
    by_cases hn : arrayIsNull
        (ArrayData.mk DataType.utf8 len 0 [offs, data] bm []) i = true
    · rw [if_pos hn] at hval
      injection hval with h2
      exact Or.inl h2.symm
    · rw [if_neg hn] at hval
      by_cases hv8 : utf8Valid (utf8Slot
          (ArrayData.mk DataType.utf8 len 0 [offs, data] bm []) i) = true
      · rw [if_pos hv8] at hval
        exact absurd hval (by simp)
      · rw [if_neg hv8] at hval
        injection hval with h2
        exact Or.inr h2.symm
  · intro e2 len offs bm child a err h i hi hval
    by_cases hn : arrayIsNull a i = true
    · obtain ⟨offs2, child2, hb2, hc2, _, _, ha⟩ :=
        build_list_inv e2 len [offs] bm [child] a h
      subst ha
      have hlt : i < (ArrayData.mk (DataType.list e2) len 0 [offs] bm
          [child]).length := hi
      rw [ListArray.value, if_pos hlt, if_pos hn] at hval
      injection hval with h2
      exact h2.symm
    · have hn2 : arrayIsNull a i = false := by
        cases harr : arrayIsNull a i
        · rfl
        · exact absurd harr hn
      rw [list_read_ok e2 len offs bm child a h i hi hn2] at hval
      exact absurd hval (by simp)

/-- Witness for C5: the built demo Utf8 array is offset-monotone at index 0;
the non-monotone offsets `[0, 5, 3, 12]` fail construction with
`LayoutError`; the in-range read failure of the Utf8 demo at slot 1 and of
the null-slot List demo at slot 0 are both classified by the theorem. -/
theorem claim5_witness :
    offDecode (stringDemoArray.buffers.getD 0 []) 0
      ≤ offDecode (stringDemoArray.buffers.getD 0 []) 1 ∧
    ArrayData.build DataType.utf8 3 [badOffsetsBytes, helloBytes] none []
      = .error .layoutError ∧
    (Utf8Array.value stringDemoArray 1 = .error .nullAccessError ∧
      (ArrowError.nullAccessError = ArrowError.nullAccessError ∨
        ArrowError.nullAccessError = ArrowError.encodingError)) ∧
    (ListArray.value listNullDemoData 0 = .error .nullAccessError ∧
      ArrowError.nullAccessError = ArrowError.nullAccessError) := by
  refine ⟨?_, ?_, ⟨by rfl, ?_⟩, ⟨by rfl, ?_⟩⟩
  · exact claim5_offset_monotonicity.1 DataType.utf8 3 stringDemoArray.buffers
      (some [0b00000101]) [] stringDemoArray (Or.inl rfl) (by rfl) 0
      (by norm_num)
  · exact claim5_offset_monotonicity.2.1 DataType.utf8 3
      [badOffsetsBytes, helloBytes] none [] (Or.inl rfl) (by decide)
  · exact claim5_offset_monotonicity.2.2.1 3 (stringDemoArray.buffers.getD 0 [])
      (stringDemoArray.buffers.getD 1 []) (some [0b00000101]) stringDemoArray
      .nullAccessError (by rfl) 1 (by norm_num) (by rfl)
  · exact claim5_offset_monotonicity.2.2.2 DataType.int32 3 listDemoOffsets
      (some [0b00000110]) listDemoValues listNullDemoData .nullAccessError
      (by rfl) 0 (by norm_num) (by rfl)

/-- The byte offsets `[0, 1]` of a one-slot Utf8 array. -/
def invalidUtf8Offsets : List Nat :=
  ([0, 1] : List Int).flatMap i32ToBytesLE

/-- A successfully built one-slot Utf8 array whose stored byte `0xFF` is
not a valid UTF-8 sequence (construction validates layout only; encoding
errors are read-time per spec sections 4.4 and 7). -/
def invalidUtf8Demo : ArrayData :=
  .mk .utf8 1 0 [invalidUtf8Offsets, [0xFF]] none []

/-- C8 counterexample: on the constructible one-slot Utf8 array storing the
invalid byte `0xFF`, slot 0 is in range and not null, yet `value(0)` fails
with `EncodingError` instead of returning the stored value — so the claim's
unconditional "if `is_null(i)` is false, `value(i)` returns the stored
value" is false for the Utf8 view. -/
theorem claim8_encoding_counterexample :
    ArrayData.build DataType.utf8 1 [invalidUtf8Offsets, [0xFF]] none []
      = .ok invalidUtf8Demo ∧
    arrayLen invalidUtf8Demo = 1 ∧
    arrayIsNull invalidUtf8Demo 0 = false ∧
    utf8Slot invalidUtf8Demo 0 = [0xFF] ∧
    Utf8Array.value invalidUtf8Demo 0 = .error .encodingError :=
  ⟨by rfl, by rfl, by rfl, by rfl, by rfl⟩

/-- C8 (amended): for every typed array view (`Int32`, `Utf8`, `List`) and
every in-range index, a null slot makes `value(i)` fail with
`NullAccessError` (never a fabricated value); a valid slot makes `value(i)`
return the stored value — the decoded 4-byte integer for Int32, the stored
byte slice decoded as text for Utf8 (except that invalid byte sequences
fail with `EncodingError`), and the child sliced to
`offsets[i]..offsets[i+1]` for every successfully built List array. -/
theorem claim8_value_null_contract :
    (∀ a i, i < arrayLen a → arrayIsNull a i = true →
      Int32Array.value a i = .error .nullAccessError ∧
      Utf8Array.value a i = .error .nullAccessError ∧
      ListArray.value a i = .error .nullAccessError) ∧
    (∀ a i, i < arrayLen a → arrayIsNull a i = false →
      Int32Array.value a i
        = .ok (offDecode (a.buffers.getD 0 []) (a.offset + i))) ∧
    (∀ a i, i < arrayLen a → arrayIsNull a i = false →
      utf8Valid (utf8Slot a i) = true →
      Utf8Array.value a i = .ok (utf8Slot a i)) ∧
    (∀ a i, i < arrayLen a → arrayIsNull a i = false →
      utf8Valid (utf8Slot a i) = false →
      Utf8Array.value a i = .error .encodingError) ∧
    (∀ e2 len offs bm child a i,
      ArrayData.build (DataType.list e2) len [offs] bm [child] = .ok a →
      i < len → arrayIsNull a i = false →
      ListArray.value a i = .ok (ArrayData.mk child.dataType
        ((offDecode offs (i + 1)).toNat - (offDecode offs i).toNat)
        (child.offset + (offDecode offs i).toNat)
        child.buffers child.nullBitmap child.children)) := by
  refine ⟨?_, ?_, ?_, ?_, ?_⟩
  · intro a i h hn
    have hlt : i < a.length := h
    refine ⟨?_, ?_, ?_⟩
    · rw [Int32Array.value, if_pos hlt, if_pos hn]
    · rw [Utf8Array.value, if_pos hlt, if_pos hn]
    · rw [ListArray.value, if_pos hlt, if_pos hn]
  · intro a i h hn
    have hlt : i < a.length := h
    rw [Int32Array.value, if_pos hlt, if_neg (by rw [hn]; simp)]
  · intro a i h hn hv
    have hlt : i < a.length := h
    rw [Utf8Array.value, if_pos hlt, if_neg (by rw [hn]; simp), if_pos hv]
  · intro a i h hn hv
    have hlt : i < a.length := h
    rw [Utf8Array.value, if_pos hlt, if_neg (by rw [hn]; simp),
      if_neg (by rw [hv]; simp)]
  · intro e2 len offs bm child a i h hi hn
    exact list_read_ok e2 len offs bm child a h i hi hn

/-- The two-slot array `[7, null]` used to witness C8. -/
def c8DemoArray : ArrayData :=
  (((Int32Builder.new 0).append_value 7).append_null).finish.1

/-- Witness for C8: the null slot of `[7, null]` fails with
`NullAccessError` through all three views; its valid slot reads back 7; the
valid ASCII slot of the Utf8 demo reads back its stored slice; the invalid
byte of `invalidUtf8Demo` fails with `EncodingError`; and element 0 of the
C6 list demo is the child sliced to `offsets[0]..offsets[1]`. -/
theorem claim8_witness :
    Int32Array.value c8DemoArray 1 = .error .nullAccessError ∧
    Utf8Array.value c8DemoArray 1 = .error .nullAccessError ∧
    ListArray.value c8DemoArray 1 = .error .nullAccessError ∧
    Int32Array.value c8DemoArray 0 = .ok 7 ∧
    Utf8Array.value stringDemoArray 0 = .ok (utf8Slot stringDemoArray 0) ∧
    Utf8Array.value invalidUtf8Demo 0 = .error .encodingError ∧
    ListArray.value listDemoData 0 = .ok (ArrayData.mk
      listDemoValues.dataType
      ((offDecode listDemoOffsets 1).toNat - (offDecode listDemoOffsets 0).toNat)
      (listDemoValues.offset + (offDecode listDemoOffsets 0).toNat)
      listDemoValues.buffers listDemoValues.nullBitmap
      listDemoValues.children) := by
  have hnull := claim8_value_null_contract.1 c8DemoArray 1 (by decide) (by decide)
  refine ⟨hnull.1, hnull.2.1, hnull.2.2, ?_, ?_, ?_, ?_⟩
  · have h := claim8_value_null_contract.2.1 c8DemoArray 0 (by decide) (by decide)
    rw [h]
    exact congrArg Except.ok (by decide)
  · exact claim8_value_null_contract.2.2.1 stringDemoArray 0 (by decide)
      (by decide) (by decide)
  · exact claim8_value_null_contract.2.2.2.1 invalidUtf8Demo 0 (by decide)
      (by decide) (by decide)
  · exact claim8_value_null_contract.2.2.2.2 DataType.int32 3 listDemoOffsets
      none listDemoValues listDemoData 0 (by rfl) (by norm_num) (by rfl)
